import Mathlib

/-!
# Verification of `Hello` (src/go/hello.go)

The repository is one Go function,

    func Hello(name string) (string, error)

which returns `name` together with `errors.New("empty name test")` when `name`
is the empty string and `fmt.Sprintf("Hello %s test", name)` with a nil error
otherwise.

Embedding.

* A Go `string` is an immutable sequence of bytes, not necessarily valid UTF-8:
  `GoString := List UInt8`.  A string literal of the source denotes the UTF-8
  encoding of its text (`lit`).
* `errors.New` allocates: every call returns a pointer to a fresh `errorString`
  object.  The allocation is made explicit by passing the heap of `errorString`
  objects through `Hello`; a Go `error` value is nil or an address in that heap.
* `fmt.Sprintf` is an interpreter of its format string.  It is embedded as an
  interpreter (`fmt.doPrintf`) so that the difference between the format and an
  operand is visible in the model.
-/

namespace hello

/-- A Go `string`: a sequence of bytes. -/
abbrev GoString := List UInt8

/-- The bytes denoted by a string literal of the Go source (UTF-8). -/
def lit (s : String) : GoString := s.data.flatMap String.utf8EncodeChar

namespace errors

/-- The struct of package `errors` behind the values that `errors.New` returns:
`type errorString struct { s string }`. -/
structure errorString where
  s : GoString
deriving DecidableEq, Repr

/-- The `errorString` objects allocated so far; an address is an index. -/
abbrev Heap := List errorString

/-- The Go call `errors.New(text)`, that is `return &errorString{text}`: a fresh
object is allocated and its address returned. -/
def New (text : GoString) (heap : Heap) : Nat × Heap :=
  (heap.length, heap ++ [⟨text⟩])

end errors

open errors (Heap)

/-- A Go `error` value as `Hello` can return it: `none` is nil, `some p` is the
pointer `p` to an `errorString`. -/
abbrev GoError := Option Nat

/-- The method `func (e *errorString) Error() string { return e.s }`, read
through the heap. -/
def GoError.Error (heap : Heap) (p : Nat) : Option GoString :=
  (heap.get? p).map errors.errorString.s

/-- The message of an `error` value: `none` for nil (and for a dangling
address, which `Hello` never produces). -/
def GoError.message (heap : Heap) (err : GoError) : Option GoString :=
  err.bind (GoError.Error heap)

namespace fmt

/-- An operand as fmt prints it inside one of its error forms:
type name, `=`, value under `%v`. -/
def typed (a : GoString) : GoString := lit "string=" ++ a

/-- The operands left over when the format is exhausted, separated by `, `. -/
def extraArgs : List GoString → GoString
  | [] => []
  | [a] => typed a
  | a :: b :: rest => typed a ++ lit ", " ++ extraArgs (b :: rest)

/-- The end of `doPrintf`: operands that no verb consumed are reported. -/
def finish : List GoString → GoString
  | [] => []
  | a :: rest => lit "%!(EXTRA " ++ extraArgs (a :: rest) ++ lit ")"

/-- What one verb prints, and the operands that remain. `%s` and `%v` print the
bytes of a string operand unchanged; without an operand the verb prints
`%!verb(MISSING)`; a verb that fmt does not define for strings prints
`%!verb(string=value)`. -/
def printVerb (verb : UInt8) : List GoString → GoString × List GoString
  | [] => (lit "%!" ++ [verb] ++ lit "(MISSING)", [])
  | a :: rest =>
    if verb = 115 ∨ verb = 118 then (a, rest)
    else (lit "%!" ++ [verb] ++ lit "(" ++ typed a ++ lit ")", rest)

/-- The formats on which `doPrintf` below is exact: every `%` (byte 37) is
followed by `%`, `s` (115) or `v` (118).  Flags, widths, precisions, argument
indexes and the other verbs are outside this fragment. -/
def supported : GoString → Bool
  | [] => true
  | c :: rest =>
    if c ≠ 37 then supported rest
    else
      match rest with
      | [] => false
      | v :: rest2 => (v = 37 ∨ v = 115 ∨ v = 118) && supported rest2

/-- The interpreter behind `fmt.Sprintf` for string operands. Bytes other than
`%` are copied; `%%` prints a percent sign; `%` followed by a verb prints the
next operand under that verb; a `%` that ends the format prints `%!(NOVERB)`. -/
def doPrintf : GoString → List GoString → GoString
  | [], args => finish args
  | c :: rest, args =>
    if c ≠ 37 then c :: doPrintf rest args
    else
      match rest with
      | [] => lit "%!(NOVERB)" ++ finish args
      | v :: rest2 =>
        if v = 37 then 37 :: doPrintf rest2 args
        else (printVerb v args).1 ++ doPrintf rest2 (printVerb v args).2

/-- The Go call `fmt.Sprintf(format, args...)` with string operands, for a
format of the supported fragment. -/
def Sprintf (format : GoString) (args : List GoString)
    (_h : supported format = true) : GoString :=
  doPrintf format args

end fmt

/-- The function `Hello` of src/go/hello.go.

    func Hello(name string) (string, error) {
        if name == "" {
            return name, errors.New("empty name test")
        }
        message := fmt.Sprintf("Hello %s test", name)
        return message, nil
    }

The result is the returned pair and the heap after the call. -/
def Hello (name : GoString) (heap : Heap) : (GoString × GoError) × Heap :=
  if name = lit "" then
    let (p, heap2) := errors.New (lit "empty name test") heap
    ((name, some p), heap2)
  else
    let message := fmt.Sprintf (lit "Hello %s test") [name] (by decide)
    ((message, none), heap)

/-! ## Evaluation of the literals and of the format -/

theorem lit_empty : lit "" = [] := by decide

theorem lit_pre : lit "Hello " = [72, 101, 108, 108, 111, 32] := by decide

theorem lit_suf : lit " test" = [32, 116, 101, 115, 116] := by decide

theorem lit_format :
    lit "Hello %s test" = [72, 101, 108, 108, 111, 32, 37, 115, 32, 116, 101, 115, 116] := by
  decide

/-- The format of `Hello` applied to one operand: the operand is copied between
the two literal parts of the format. -/
theorem doPrintf_format (name : GoString) :
    fmt.doPrintf (lit "Hello %s test") [name] = lit "Hello " ++ name ++ lit " test" := by
  rw [lit_format, lit_pre, lit_suf]
  simp [fmt.doPrintf, fmt.printVerb, fmt.finish]

/-! ## The two paths of `Hello` -/

/-- The failing path: the name is returned and a fresh `errorString` holding
the message is allocated at the end of the heap. -/
theorem Hello_of_empty (heap : Heap) :
    Hello (lit "") heap
      = ((lit "", some heap.length), heap ++ [⟨lit "empty name test"⟩]) := by
  simp [Hello, errors.New]

/-- The succeeding path: the greeting is built, the error is nil and nothing is
allocated. -/
theorem Hello_of_ne (name : GoString) (heap : Heap) (h : name ≠ lit "") :
    Hello name heap = ((lit "Hello " ++ name ++ lit " test", none), heap) := by
  simp [Hello, h, fmt.Sprintf, doPrintf_format]

theorem Error_fresh (heap : Heap) (e : errors.errorString) :
    GoError.Error (heap ++ [e]) heap.length = some e.s := by
  simp [GoError.Error]

theorem lit_append (a b : String) : lit (a ++ b) = lit a ++ lit b := by
  simp [lit]

theorem lit_pre_length : (lit "Hello ").length = 6 := by decide

theorem lit_suf_length : (lit " test").length = 5 := by decide

/-- Cutting six elements from the front and five from the back of a list
built as front, middle, back leaves the middle. -/
theorem slice_mid {α : Type} (p x q : List α) (hp : p.length = 6) (hq : q.length = 5) :
    ((p ++ x ++ q).take ((p ++ x ++ q).length - 5)).drop 6 = x := by
  have h5 : (p ++ x ++ q).length - 5 = (p ++ x).length := by
    simp only [List.length_append, hq]
    omega
  rw [h5, List.take_left, List.drop_left' hp]

/-- The Go slice `g[6 : len(g)-5]` of a greeting is the name. -/
theorem slice_greeting (name : GoString) :
    ((lit "Hello " ++ name ++ lit " test").take
        ((lit "Hello " ++ name ++ lit " test").length - 5)).drop 6 = name :=
  slice_mid _ name _ lit_pre_length lit_suf_length

/-- Text that is not empty has an encoding that is not empty. -/
theorem lit_ne_empty (s : String) (h : s ≠ "") : lit s ≠ lit "" := by
  intro hs
  rw [lit_empty, lit, List.flatMap_eq_nil_iff] at hs
  cases hd : s.data with
  | nil => exact h (String.ext hd)
  | cons c cs =>
    have hc := hs c (by simp [hd])
    have hlen := String.length_utf8EncodeChar c
    have hpos := Char.utf8Size_pos c
    rw [hc] at hlen
    simp at hlen
    omega

/-- A format is interpreted: had the name been used as the format, its
directives would have been executed rather than copied. -/
theorem doPrintf_interprets_format :
    fmt.doPrintf (lit "%s") [] = lit "%!s(MISSING)" ∧
    fmt.doPrintf (lit "%d") [lit "x"] = lit "%!d(string=x)" ∧
    fmt.doPrintf (lit "100%%") [] = lit "100%" ∧
    fmt.doPrintf (lit "%") [] = lit "%!(NOVERB)" ∧
    fmt.doPrintf (lit "a") [lit "x", lit "y"] = lit "a%!(EXTRA string=x, string=y)" := by
  decide

/-- Two failing calls in a row return different pointers: the error values are
distinct objects, only their messages agree. -/
theorem Hello_empty_twice (heap : Heap) :
    (Hello (lit "") (Hello (lit "") heap).2).1.2 ≠ (Hello (lit "") heap).1.2 := by
  simp [Hello_of_empty]

/-! ## The claims -/

/-- C1: for every non-empty string `s`, `Hello s` returns the greeting
`"Hello " ++ s ++ " test"` with a nil error (and allocates nothing); in
particular `Hello "World"` returns `"Hello World test"` and nil. -/
theorem Hello_nonempty_greets (s : GoString) (heap : Heap) (h : s ≠ lit "") :
    Hello s heap = ((lit "Hello " ++ s ++ lit " test", none), heap) ∧
    Hello (lit "World") heap = ((lit "Hello World test", none), heap) := by
  refine ⟨Hello_of_ne s heap h, ?_⟩
  rw [Hello_of_ne (lit "World") heap (by decide)]
  have : lit "Hello " ++ lit "World" ++ lit " test" = lit "Hello World test" := by decide
  rw [this]

theorem Hello_nonempty_greets_witness :
    lit "Gopher" ≠ lit "" ∧
    Hello (lit "Gopher") [] = ((lit "Hello " ++ lit "Gopher" ++ lit " test", none), []) :=
  ⟨by decide, (Hello_nonempty_greets (lit "Gopher") [] (by decide)).1⟩

/-- C2: `Hello ""` fails: the error it returns is non-nil and its message is
exactly `"empty name test"`, and the returned greeting is the empty string,
equal to the input name. -/
theorem Hello_empty_fails (heap : Heap) :
    (Hello (lit "") heap).1.1 = lit "" ∧
    (Hello (lit "") heap).1.1 = [] ∧
    ∃ p, (Hello (lit "") heap).1.2 = some p ∧
      GoError.Error (Hello (lit "") heap).2 p = some (lit "empty name test") := by
  rw [Hello_of_empty]
  exact ⟨rfl, lit_empty, heap.length, rfl, Error_fresh heap ⟨lit "empty name test"⟩⟩

/-- C3: for every name, `Hello name` returns an error exactly when the name is
empty, and every error it returns is an `errorString` object whose message is
the fixed text `"empty name test"`; being a total function, `Hello` has no
other way to fail. -/
theorem Hello_error_iff_empty (name : GoString) (heap : Heap) :
    ((Hello name heap).1.2 ≠ none ↔ name = lit "") ∧
    ∀ p, (Hello name heap).1.2 = some p →
      (Hello name heap).2.get? p = some ⟨lit "empty name test"⟩ ∧
      GoError.Error (Hello name heap).2 p = some (lit "empty name test") := by
  by_cases h : name = lit ""
  · subst h
    rw [Hello_of_empty]
    refine ⟨by simp, ?_⟩
    intro p hp
    have hp2 : heap.length = p := by simpa using hp
    subst hp2
    exact ⟨by simp, Error_fresh heap ⟨lit "empty name test"⟩⟩
  · rw [Hello_of_ne name heap h]
    simp [h]

theorem Hello_error_iff_empty_witness :
    (Hello (lit "") [⟨lit "earlier"⟩]).1.2 = some 1 ∧
    (Hello (lit "") [⟨lit "earlier"⟩]).2.get? 1 = some ⟨lit "empty name test"⟩ ∧
    GoError.Error (Hello (lit "") [⟨lit "earlier"⟩]).2 1 = some (lit "empty name test") :=
  ⟨by decide, (Hello_error_iff_empty (lit "") [⟨lit "earlier"⟩]).2 1 (by decide)⟩

/-- C4: `Hello` is deterministic: whatever the heaps left by earlier calls,
two calls with the same name return the same greeting, agree on whether an
error is returned, and the errors carry the same message. -/
theorem Hello_deterministic (name : GoString) (heap1 heap2 : Heap) :
    (Hello name heap1).1.1 = (Hello name heap2).1.1 ∧
    (Hello name heap1).1.2.isSome = (Hello name heap2).1.2.isSome ∧
    GoError.message (Hello name heap1).2 (Hello name heap1).1.2
      = GoError.message (Hello name heap2).2 (Hello name heap2).1.2 := by
  by_cases h : name = lit ""
  · subst h
    simp [Hello_of_empty, GoError.message, Error_fresh]
  · simp [Hello_of_ne name _ h, GoError.message]

/-- C5: `Hello` validates nothing but emptiness: every non-empty name is
accepted without error and embedded as it is, untrimmed; so the names `" "`
and `"\n"`, made of whitespace only, give `"Hello   test"` and
`"Hello \n test"` with a nil error. -/
theorem Hello_no_sanitization (name : GoString) (heap : Heap) (h : name ≠ lit "") :
    (Hello name heap).1.2 = none ∧
    (Hello name heap).1.1 = lit "Hello " ++ name ++ lit " test" ∧
    Hello (lit " ") heap = ((lit "Hello   test", none), heap) ∧
    Hello (lit "\n") heap = ((lit "Hello \n test", none), heap) ∧
    Hello (lit " \t\r\n ") heap = ((lit "Hello  \t\r\n  test", none), heap) := by
  rw [Hello_of_ne name heap h, Hello_of_ne (lit " ") heap (by decide),
    Hello_of_ne (lit "\n") heap (by decide), Hello_of_ne (lit " \t\r\n ") heap (by decide)]
  have e1 : lit "Hello " ++ lit " " ++ lit " test" = lit "Hello   test" := by decide
  have e2 : lit "Hello " ++ lit "\n" ++ lit " test" = lit "Hello \n test" := by decide
  have e3 : lit "Hello " ++ lit " \t\r\n " ++ lit " test" = lit "Hello  \t\r\n  test" := by
    decide
  rw [e1, e2, e3]
  exact ⟨rfl, rfl, rfl, rfl, rfl⟩

theorem Hello_no_sanitization_witness :
    ([0, 9, 32, 127] : GoString) ≠ lit "" ∧
    (Hello [0, 9, 32, 127] []).1.2 = none ∧
    (Hello [0, 9, 32, 127] []).1.1 = lit "Hello " ++ [0, 9, 32, 127] ++ lit " test" :=
  ⟨by decide, (Hello_no_sanitization [0, 9, 32, 127] [] (by decide)).1,
    (Hello_no_sanitization [0, 9, 32, 127] [] (by decide)).2.1⟩

/-- C6: `Hello` assumes no ASCII: for every name that contains a byte outside
ASCII (128 or above), the bytes of the name stand unchanged in the greeting
between `"Hello "` and `" test"`, with a nil error; in particular
`Hello "Ãlice"` returns `"Hello Ãlice test"` and nil. -/
theorem Hello_non_ascii (name : GoString) (heap : Heap) (h : ∃ b ∈ name, (128 : UInt8) ≤ b) :
    Hello name heap = ((lit "Hello " ++ name ++ lit " test", none), heap) ∧
    Hello (lit "Ãlice") heap = ((lit "Hello Ãlice test", none), heap) := by
  have hne : name ≠ lit "" := by
    rintro rfl
    obtain ⟨b, hb, -⟩ := h
    simp [lit_empty] at hb
  refine ⟨Hello_of_ne name heap hne, ?_⟩
  rw [Hello_of_ne (lit "Ãlice") heap (by decide)]
  have : lit "Hello " ++ lit "Ãlice" ++ lit " test" = lit "Hello Ãlice test" := by decide
  rw [this]

theorem Hello_non_ascii_witness :
    (∃ b ∈ lit "日本", (128 : UInt8) ≤ b) ∧
    Hello (lit "日本") [] = ((lit "Hello " ++ lit "日本" ++ lit " test", none), []) :=
  ⟨by decide, (Hello_non_ascii (lit "日本") [] (by decide)).1⟩

/-- C7: the name is data, not a format: for every name that contains a percent
sign (byte 37), `Hello` returns `"Hello " ++ name ++ " test"` with the name
copied literally; so `"%s"`, `"%d"`, `"%"` and `"%!v"` give `"Hello %s test"`,
`"Hello %d test"`, `"Hello % test"` and `"Hello %!v test"`. -/
theorem Hello_name_not_format (name : GoString) (heap : Heap) (h : (37 : UInt8) ∈ name) :
    Hello name heap = ((lit "Hello " ++ name ++ lit " test", none), heap) ∧
    Hello (lit "%s") heap = ((lit "Hello %s test", none), heap) ∧
    Hello (lit "%d") heap = ((lit "Hello %d test", none), heap) ∧
    Hello (lit "%") heap = ((lit "Hello % test", none), heap) ∧
    Hello (lit "%!v") heap = ((lit "Hello %!v test", none), heap) := by
  have hne : name ≠ lit "" := by
    rintro rfl
    simp [lit_empty] at h
  rw [Hello_of_ne name heap hne, Hello_of_ne (lit "%s") heap (by decide),
    Hello_of_ne (lit "%d") heap (by decide), Hello_of_ne (lit "%") heap (by decide),
    Hello_of_ne (lit "%!v") heap (by decide)]
  have e1 : lit "Hello " ++ lit "%s" ++ lit " test" = lit "Hello %s test" := by decide
  have e2 : lit "Hello " ++ lit "%d" ++ lit " test" = lit "Hello %d test" := by decide
  have e3 : lit "Hello " ++ lit "%" ++ lit " test" = lit "Hello % test" := by decide
  have e4 : lit "Hello " ++ lit "%!v" ++ lit " test" = lit "Hello %!v test" := by decide
  rw [e1, e2, e3, e4]
  exact ⟨rfl, rfl, rfl, rfl, rfl⟩

theorem Hello_name_not_format_witness :
    (37 : UInt8) ∈ lit "100%[1]*.3q" ∧
    Hello (lit "100%[1]*.3q") []
      = ((lit "Hello " ++ lit "100%[1]*.3q" ++ lit " test", none), []) :=
  ⟨by decide, (Hello_name_not_format (lit "100%[1]*.3q") [] (by decide)).1⟩

/-- C8: `Hello` is injective and the name can be read back from the greeting:
two calls that return the same greeting were given the same name; for a
non-empty name the Go slice `g[6 : len(g)-5]` of the greeting `g`, which drops
the six bytes of `"Hello "` and the five bytes of `" test"`, is the name; and
when the name is the encoding of a text `s`, the greeting is the encoding of
`"Hello " ++ s ++ " test"`, from which dropping the first six and the last five
characters leaves `s`. -/
theorem Hello_injective_recoverable (a b : GoString) (heapa heapb : Heap) (s : String) :
    ((Hello a heapa).1.1 = (Hello b heapb).1.1 → a = b) ∧
    (a ≠ lit "" →
      ((Hello a heapa).1.1.take ((Hello a heapa).1.1.length - 5)).drop 6 = a) ∧
    (s ≠ "" →
      (Hello (lit s) heapa).1.1 = lit ("Hello " ++ s ++ " test") ∧
      String.mk ((("Hello " ++ s ++ " test").data.take
        (("Hello " ++ s ++ " test").data.length - 5)).drop 6) = s) := by
  refine ⟨?_, ?_, ?_⟩
  · intro h
    by_cases ha : a = lit "" <;> by_cases hb : b = lit ""
    · rw [ha, hb]
    · subst ha
      rw [Hello_of_empty, Hello_of_ne b heapb hb] at h
      have hl := congrArg List.length h
      simp only [lit_empty, lit_pre_length, List.length_append, List.length_nil] at hl
      omega
    · subst hb
      rw [Hello_of_empty, Hello_of_ne a heapa ha] at h
      have hl := congrArg List.length h
      simp only [lit_empty, lit_pre_length, List.length_append, List.length_nil] at hl
      omega
    · rw [Hello_of_ne a heapa ha, Hello_of_ne b heapb hb] at h
      simpa using h
  · intro ha
    rw [Hello_of_ne a heapa ha]
    exact slice_greeting a
  · intro hs
    refine ⟨?_, ?_⟩
    · rw [Hello_of_ne (lit s) heapa (lit_ne_empty s hs), lit_append, lit_append]
    · have hd : ("Hello " ++ s ++ " test").data = "Hello ".data ++ s.data ++ " test".data := by
        simp [String.data_append]
      rw [hd, slice_mid "Hello ".data s.data " test".data (by decide) (by decide)]

theorem Hello_injective_recoverable_witness :
    ((Hello (lit "Ann") []).1.1 = (Hello (lit "Ann") [⟨lit "x"⟩]).1.1 ∧ lit "Ann" = lit "Ann") ∧
    (lit "Ann" ≠ lit "" ∧
      ((Hello (lit "Ann") []).1.1.take ((Hello (lit "Ann") []).1.1.length - 5)).drop 6
        = lit "Ann") ∧
    ("Ann" ≠ "" ∧ (Hello (lit "Ann") []).1.1 = lit ("Hello " ++ "Ann" ++ " test")) :=
  ⟨⟨by decide,
      (Hello_injective_recoverable (lit "Ann") (lit "Ann") [] [⟨lit "x"⟩] "Ann").1 (by decide)⟩,
    ⟨by decide,
      (Hello_injective_recoverable (lit "Ann") (lit "Ann") [] [⟨lit "x"⟩] "Ann").2.1 (by decide)⟩,
    ⟨by decide,
      ((Hello_injective_recoverable (lit "Ann") (lit "Ann") [] [⟨lit "x"⟩] "Ann").2.2
        (by decide)).1⟩⟩

/-- C9: for every name, the greeting returned by `Hello` is empty exactly when
an error is returned; and when no error is returned the greeting has length
`length name + 11`, hence at least 12, starts with `"Hello "` and ends with
`" test"`. -/
theorem Hello_greeting_shape (name : GoString) (heap : Heap) :
    ((Hello name heap).1.1 = [] ↔ (Hello name heap).1.2 ≠ none) ∧
    ((Hello name heap).1.2 = none →
      (Hello name heap).1.1.length = name.length + 11 ∧
      12 ≤ (Hello name heap).1.1.length ∧
      lit "Hello " <+: (Hello name heap).1.1 ∧
      lit " test" <:+ (Hello name heap).1.1) := by
  by_cases h : name = lit ""
  · subst h
    rw [Hello_of_empty]
    simp [lit_empty]
  · have hpos : 0 < name.length := by
      rw [lit_empty] at h
      exact List.length_pos.mpr h
    rw [Hello_of_ne name heap h]
    refine ⟨?_, fun _ => ⟨?_, ?_, ?_, ?_⟩⟩
    · simp [lit_pre]
    · simp only [List.length_append, lit_pre_length, lit_suf_length]
      omega
    · simp only [List.length_append, lit_pre_length, lit_suf_length]
      omega
    · exact ⟨name ++ lit " test", by simp⟩
    · exact ⟨lit "Hello " ++ name, rfl⟩

theorem Hello_greeting_shape_witness :
    (Hello (lit "Go") []).1.2 = none ∧
    (Hello (lit "Go") []).1.1.length = (lit "Go").length + 11 ∧
    12 ≤ (Hello (lit "Go") []).1.1.length ∧
    lit "Hello " <+: (Hello (lit "Go") []).1.1 ∧
    lit " test" <:+ (Hello (lit "Go") []).1.1 :=
  ⟨by decide, (Hello_greeting_shape (lit "Go") []).2 (by decide)⟩

end hello
